import Mathlib

/-!
# Verification of the asset-selling simulation core

A shallow embedding of `AssetSelling/AssetSellingModel.py`: a discrete-time
model in which an agent holds one unit of an asset whose price follows a
regime-switching random walk and decides each step whether to sell.

Modelling conventions:
* Python floats become rationals (`ℚ`); the field names of the Python
  namedtuples and of the model object are kept.
* The model's pseudo-random source (`self.prng`) becomes an explicit
  stream `ℕ → ℚ` of draws together with a cursor `rngIdx` stored in the
  model; `prng.uniform()` reads the stream at the cursor, and
  `prng.normal(loc, scale)` is modelled as `loc + scale * z` where `z` is
  the next stream value (a fixed-semantics draw).  Each read advances the
  cursor.
* The Python constructor builds `State`/`Decision` namedtuple classes from
  caller-supplied field-name lists; the claims only ever touch the fields
  `resource`, `price`, `price_smoothed`, `bias` and `sell`, so the records
  are embedded with exactly those fields, while the schema lists are kept
  in the model for the frame properties.
-/

namespace AssetSelling

/-- The price regime labels used as row/column keys of `biasdf`. -/
inductive Bias where
  | Up
  | Neutral
  | Down
deriving DecidableEq

/-- The `State` namedtuple: `resource` (units held), `price`,
`price_smoothed`, and the current regime `bias`. -/
structure State where
  resource : ℚ
  price : ℚ
  price_smoothed : ℚ
  bias : Bias
deriving DecidableEq

/-- The `Decision` namedtuple: `sell` is 1 to liquidate, 0 to hold. -/
structure Decision where
  sell : ℚ
deriving DecidableEq

/-- The exogenous parameters as stored in the model after construction:
`biasdf` holds the *cumulated* rows. -/
structure ExogParams where
  biasdf : Bias → Bias → ℚ
  UpStep : ℚ
  DownStep : ℚ
  Variance : ℚ

/-- The exogenous parameters as supplied by the caller (`exog_0`):
`biasdf` holds the raw, pre-cumulation per-row transition probabilities. -/
structure RawParams where
  biasdf : Bias → Bias → ℚ
  UpStep : ℚ
  DownStep : ℚ
  Variance : ℚ

/-- The model object: configuration fixed at construction
(`state_variable`, `decision_variable`, `T`, `seed`, `exog_params`)
together with the runtime state (`state`, running `objective`, and the
random-stream cursor `rngIdx` standing for the owned `prng`). -/
structure Model where
  state_variable : List String
  decision_variable : List String
  T : ℕ
  seed : ℕ
  exog_params : ExogParams
  state : State
  objective : ℚ
  rngIdx : ℕ

/-- Embeds `biasdf.cumsum(axis=1)`: cumulate each row over the column order
`Up, Neutral, Down`. -/
def cumsumRow (raw : Bias → Bias → ℚ) : Bias → Bias → ℚ := fun r c =>
  match c with
  | .Up => raw r .Up
  | .Neutral => raw r .Up + raw r .Neutral
  | .Down => raw r .Up + raw r .Neutral + raw r .Down

/-- Sum of one raw `biasdf` row over the three regimes. -/
def rowSum (raw : Bias → Bias → ℚ) (r : Bias) : ℚ :=
  raw r .Up + raw r .Neutral + raw r .Down

/-- Embeds `AssetSellingModel.__init__`: stores the configuration, cumulates the
`biasdf` rows once, seeds the random source (here: resets the stream
cursor), installs the initial state, and zeroes the objective.  The
source performs no validation whatsoever on `exog_0`. -/
def AssetSellingModel.init (state_variable decision_variable : List String)
    (state_0 : State) (exog_0 : RawParams) (T : ℕ) (seed : ℕ) : Model :=
  { state_variable := state_variable
    decision_variable := decision_variable
    T := T
    seed := seed
    exog_params :=
      { biasdf := cumsumRow exog_0.biasdf
        UpStep := exog_0.UpStep
        DownStep := exog_0.DownStep
        Variance := exog_0.Variance }
    state := state_0
    objective := 0
    rngIdx := 0 }

/-- The configuration failure the spec requires construction to raise. -/
inductive ConfigurationError where
  | badRow
deriving DecidableEq

/-- Modelled from the spec: the validating constructor required by the
spec's error-handling design, which is absent from the source
(`__init__` cumulates `biasdf` without any check).  It rejects with a
`ConfigurationError` any raw `biasdf` one of whose rows does not sum
to 1 before cumulation; the total-function table of this embedding
cannot omit a regime, so only the row-sum check is modelled. -/
def initValidated (state_variable decision_variable : List String)
    (state_0 : State) (exog_0 : RawParams) (T : ℕ) (seed : ℕ) :
    Except ConfigurationError Model :=
  if rowSum exog_0.biasdf .Up = 1 ∧ rowSum exog_0.biasdf .Neutral = 1 ∧
      rowSum exog_0.biasdf .Down = 1 then
    .ok (AssetSellingModel.init state_variable decision_variable state_0 exog_0 T seed)
  else
    .error .badRow

/-- Whether a validated construction was rejected. -/
def isError : Except ConfigurationError Model → Bool
  | .error _ => true
  | .ok _ => false

/-- The regime-selection and drift branch of `exog_info_fn`, applied to
the drawn `coin`: `if coin < biasprob["Up"]`, `elif coin >=
biasprob["Up"] and coin < biasprob["Neutral"]`, `else` Down.  Returns
the new regime together with the drift (`bias`) used as the mean of the
price-delta draw. -/
def bias_draw (m : Model) (coin : ℚ) : Bias × ℚ :=
  let biasprob := m.exog_params.biasdf m.state.bias
  if coin < biasprob .Up then (.Up, m.exog_params.UpStep)
  else if biasprob .Up ≤ coin ∧ coin < biasprob .Neutral then (.Neutral, 0)
  else (.Down, m.exog_params.DownStep)

/-- Embeds `self.prng.normal(bias, exog_params["Variance"])` under a
fixed-semantics source: mean plus scale times the standard draw `z`. -/
def price_delta_draw (m : Model) (coin z : ℚ) : ℚ :=
  (bias_draw m coin).2 + m.exog_params.Variance * z

/-- Embeds `exog_info_fn`: draws `coin` and the standard normal value from the
stream (two draws, advancing the cursor by 2), selects the new regime,
forms the price delta, and clamps the updated price at 0.  Returns the
exogenous information (new price and regime) and the advanced cursor. -/
def exog_info_fn (stream : ℕ → ℚ) (m : Model) : (ℚ × Bias) × ℕ :=
  let coin := stream m.rngIdx
  let price_delta := price_delta_draw m coin (stream (m.rngIdx + 1))
  let updated_price := m.state.price + price_delta
  let new_price := if updated_price < 0 then 0 else updated_price
  ((new_price, (bias_draw m coin).1), m.rngIdx + 2)

/-- Embeds `transition_fn`: new `resource` is 0 on `sell == 1` and unchanged
otherwise; new `price_smoothed` is the exponential smoothing of the old
one with the generator's new price, `alpha = 0.7`.  It takes no stream:
the transition draws no randomness. -/
def transition_fn (m : Model) (decision : Decision) (exog_info : ℚ × Bias) : ℚ × ℚ :=
  let alpha : ℚ := mkRat 7 10
  let new_resource := if decision.sell = 1 then 0 else m.state.resource
  let new_price_smoothed :=
    (1 - alpha) * m.state.price_smoothed + alpha * exog_info.1
  (new_resource, new_price_smoothed)

/-- Embeds `objective_fn`: the contribution is the pre-transition `price` times
`sell_size`, where `sell_size` is 1 exactly when `sell == 1` and the
resource is still held. -/
def objective_fn (m : Model) (decision : Decision) (exog_info : ℚ × Bias) : ℚ :=
  let sell_size : ℚ := if decision.sell = 1 ∧ m.state.resource ≠ 0 then 1 else 0
  m.state.price * sell_size

/-- Embeds `step`: runs the generator, accumulates the objective computed on the
pre-transition state, applies the transition, and installs the new state
(resource, generator price, smoothed price, generator regime). -/
def step (stream : ℕ → ℚ) (m : Model) (decision : Decision) : Model :=
  let ex := exog_info_fn stream m
  let exog_info := ex.1
  { m with
    state :=
      { resource := (transition_fn m decision exog_info).1
        price := exog_info.1
        price_smoothed := (transition_fn m decision exog_info).2
        bias := exog_info.2 }
    objective := m.objective + objective_fn m decision exog_info
    rngIdx := ex.2 }

/-- Final model after feeding a decision sequence through `step`. -/
def run (stream : ℕ → ℚ) (m : Model) : List Decision → Model
  | [] => m
  | d :: ds => run stream (step stream m d) ds

/-- The sequence of models produced by feeding a decision sequence
through `step`, one entry per step. -/
def traj (stream : ℕ → ℚ) (m : Model) : List Decision → List Model
  | [] => []
  | d :: ds => step stream m d :: traj stream (step stream m d) ds

/-- Raw parameters of the spec's §8 scenario (rows pre-cumulation). -/
def rawScenario : RawParams :=
  { biasdf := fun _ c =>
      match c with
      | .Up => mkRat 3 10
      | .Neutral => mkRat 2 5
      | .Down => mkRat 3 10
    UpStep := 1
    DownStep := -1
    Variance := 2 }

/-- A concrete model used by the witnesses. -/
def wModel : Model :=
  AssetSellingModel.init ["resource", "price", "price_smoothed", "bias"] ["sell"]
    { resource := 1, price := 10, price_smoothed := 10, bias := .Neutral }
    rawScenario 10 42

/-- A hold decision. -/
def wHold : Decision := { sell := 0 }

/-- A sell decision. -/
def wSell : Decision := { sell := 1 }

/-- A concrete random stream for the witnesses. -/
def wStream : ℕ → ℚ := fun i => if i % 2 = 0 then mkRat 1 2 else mkRat 1 4

/-- A decision with a `sell` value that is neither 0 nor 1. -/
def wTwo : Decision := { sell := 2 }

/-- The witness model with the asset already sold. -/
def wSoldModel : Model :=
  { wModel with state := { wModel.state with resource := 0 } }

/-- A concrete generator output used by the witnesses. -/
def wExog : ℚ × Bias := (5, .Up)

/-- A stream whose first draw equals `wModel`'s Up threshold `0.3`. -/
def wCoinStream : ℕ → ℚ := fun _ => mkRat 3 10

/-- Raw parameters whose Neutral transition probability is 0, so the
cumulative Up and Neutral thresholds coincide; every row sums to 1. -/
def rawTie : RawParams :=
  { biasdf := fun _ c =>
      match c with
      | .Up => mkRat 1 2
      | .Neutral => 0
      | .Down => mkRat 1 2
    UpStep := 1
    DownStep := -1
    Variance := 2 }

/-- A model built from `rawTie`. -/
def wTieModel : Model :=
  AssetSellingModel.init ["resource", "price", "price_smoothed", "bias"] ["sell"]
    { resource := 1, price := 10, price_smoothed := 10, bias := .Neutral }
    rawTie 10 42

/-- A stream whose first draw hits `wTieModel`'s coinciding thresholds. -/
def wTieStream : ℕ → ℚ := fun _ => mkRat 1 2

/-- A stream agreeing with `wS2` on the first four draws only. -/
def wS1 : ℕ → ℚ := fun i => if i < 4 then mkRat 1 2 else 0

/-- A stream agreeing with `wS1` on the first four draws only. -/
def wS2 : ℕ → ℚ := fun i => if i < 4 then mkRat 1 2 else 7

/-- Raw parameters whose rows sum to `0.7`, not 1. -/
def rawBad : RawParams :=
  { biasdf := fun _ c =>
      match c with
      | .Up => mkRat 1 2
      | .Neutral => mkRat 1 10
      | .Down => mkRat 1 10
    UpStep := 1
    DownStep := -1
    Variance := 2 }

/-- The model the source constructor happily builds from `rawBad`. -/
def wBadModel : Model :=
  AssetSellingModel.init ["resource", "price", "price_smoothed", "bias"] ["sell"]
    { resource := 1, price := 10, price_smoothed := 10, bias := .Neutral }
    rawBad 10 42

/-! ## Small step lemmas -/

theorem step_rngIdx (s : ℕ → ℚ) (m : Model) (d : Decision) :
    (step s m d).rngIdx = m.rngIdx + 2 := rfl

theorem step_resource_def (s : ℕ → ℚ) (m : Model) (d : Decision) :
    (step s m d).state.resource = if d.sell = 1 then 0 else m.state.resource := rfl

theorem step_price_def (s : ℕ → ℚ) (m : Model) (d : Decision) :
    (step s m d).state.price = (exog_info_fn s m).1.1 := rfl

theorem step_smoothed_def (s : ℕ → ℚ) (m : Model) (d : Decision) :
    (step s m d).state.price_smoothed =
      (1 - mkRat 7 10) * m.state.price_smoothed + mkRat 7 10 * (exog_info_fn s m).1.1 := rfl

theorem step_objective_def (s : ℕ → ℚ) (m : Model) (d : Decision) :
    (step s m d).objective =
      m.objective + m.state.price * (if d.sell = 1 ∧ m.state.resource ≠ 0 then 1 else 0) := rfl

theorem exog_price_def (s : ℕ → ℚ) (m : Model) :
    (exog_info_fn s m).1.1 =
      if m.state.price + price_delta_draw m (s m.rngIdx) (s (m.rngIdx + 1)) < 0 then 0
      else m.state.price + price_delta_draw m (s m.rngIdx) (s (m.rngIdx + 1)) := rfl

theorem exog_price_nonneg (s : ℕ → ℚ) (m : Model) : 0 ≤ (exog_info_fn s m).1.1 := by
  rw [exog_price_def]
  split
  · exact le_refl 0
  · exact le_of_not_lt (by assumption)

/-! ## Claim theorems -/

/-- C1:  Each `step` adds to the running objective exactly the
pre-transition state's `price` when `decision.sell == 1` and the
pre-transition `resource` is nonzero, and exactly 0 otherwise; in
particular a sell with `resource == 0` leaves the objective unchanged
(and, the step function being total, cannot fail). -/
theorem step_objective_contribution (s : ℕ → ℚ) (m : Model) (d : Decision) :
    ((step s m d).objective =
      m.objective + (if d.sell = 1 ∧ m.state.resource ≠ 0 then m.state.price else 0)) ∧
    (m.state.resource = 0 → (step s m d).objective = m.objective) := by
  constructor
  · rw [step_objective_def]
    by_cases h : d.sell = 1 ∧ m.state.resource ≠ 0 <;> simp [h]
  · intro h0
    rw [step_objective_def]
    simp [h0]

/-- Witness for C1: selling out of `wSoldModel` (resource already 0)
adds nothing to the objective. -/
theorem step_objective_contribution_witness :
    (step wStream wSoldModel wSell).objective = wSoldModel.objective :=
  (step_objective_contribution wStream wSoldModel wSell).2 (by with_unfolding_all decide)

/-- C3:  The transition returns `resource = 0` on `sell == 1` and the
unchanged resource otherwise, and returns
`price_smoothed = (1 − α)·price_smoothed + α·new_price` with `α = 0.7`;
having no stream argument, it consumes no random draws. -/
theorem transition_smoothing_and_resource (m : Model) (d : Decision) (e : ℚ × Bias) :
    ((transition_fn m d e).2 =
      (1 - mkRat 7 10) * m.state.price_smoothed + mkRat 7 10 * e.1) ∧
    (d.sell = 1 → (transition_fn m d e).1 = 0) ∧
    (d.sell ≠ 1 → (transition_fn m d e).1 = m.state.resource) := by
  refine ⟨rfl, fun h => ?_, fun h => ?_⟩ <;> simp [transition_fn, h]

/-- Witness for C3: the two resource branches at concrete inputs. -/
theorem transition_smoothing_and_resource_witness :
    (transition_fn wModel wSell wExog).1 = 0 ∧
    (transition_fn wModel wHold wExog).1 = wModel.state.resource :=
  ⟨(transition_smoothing_and_resource wModel wSell wExog).2.1 (by with_unfolding_all decide),
   (transition_smoothing_and_resource wModel wHold wExog).2.2 (by with_unfolding_all decide)⟩

/-- C9:  A step leaves the whole configuration untouched: field-name
schemas, horizon `T`, `seed`, and the exogenous parameters all survive
`step` unchanged; only `state`, `objective` and the random cursor move. -/
theorem step_preserves_config (s : ℕ → ℚ) (m : Model) (d : Decision) :
    (step s m d).state_variable = m.state_variable ∧
    (step s m d).decision_variable = m.decision_variable ∧
    (step s m d).T = m.T ∧
    (step s m d).seed = m.seed ∧
    (step s m d).exog_params = m.exog_params :=
  ⟨rfl, rfl, rfl, rfl, rfl⟩

/-- C10:  Any decision whose `sell` differs from 1 — not only 0 — acts
as a hold: the resource and the objective are both unchanged by the
step. -/
theorem nonunit_sell_is_hold (s : ℕ → ℚ) (m : Model) (d : Decision) (h : d.sell ≠ 1) :
    (step s m d).state.resource = m.state.resource ∧
    (step s m d).objective = m.objective := by
  constructor
  · rw [step_resource_def]; simp [h]
  · rw [step_objective_def]; simp [h]

/-- Witness for C10: `sell = 2` holds the asset and adds no reward. -/
theorem nonunit_sell_is_hold_witness :
    (step wStream wModel wTwo).state.resource = wModel.state.resource ∧
    (step wStream wModel wTwo).objective = wModel.objective :=
  nonunit_sell_is_hold wStream wModel wTwo (by with_unfolding_all decide)

/-- C2: The regime drawn by the generator collapses to the half-open
threshold scan `Up` if `coin < up_threshold`, else `Neutral` if
`coin < neutral_threshold`, else `Down` (the source's redundant
`coin >= up_threshold` conjunct is subsumed); a coin exactly equal to
the Up threshold is never resolved to Up, and resolves to Neutral
whenever the Up threshold is strictly below the Neutral one.  (The
claim's unconditional "equal coin yields Neutral" fails when the two
thresholds coincide — see the counterexample.) -/
theorem regime_selection (s : ℕ → ℚ) (m : Model) :
    ((exog_info_fn s m).1.2 =
      if s m.rngIdx < m.exog_params.biasdf m.state.bias .Up then Bias.Up
      else if s m.rngIdx < m.exog_params.biasdf m.state.bias .Neutral then Bias.Neutral
      else Bias.Down) ∧
    (s m.rngIdx = m.exog_params.biasdf m.state.bias .Up →
      (exog_info_fn s m).1.2 ≠ Bias.Up) ∧
    (s m.rngIdx = m.exog_params.biasdf m.state.bias .Up →
      m.exog_params.biasdf m.state.bias .Up < m.exog_params.biasdf m.state.bias .Neutral →
      (exog_info_fn s m).1.2 = Bias.Neutral) := by
  have hmain : (exog_info_fn s m).1.2 =
      if s m.rngIdx < m.exog_params.biasdf m.state.bias .Up then Bias.Up
      else if s m.rngIdx < m.exog_params.biasdf m.state.bias .Neutral then Bias.Neutral
      else Bias.Down := by
    show (bias_draw m (s m.rngIdx)).1 = _
    unfold bias_draw
    by_cases h1 : s m.rngIdx < m.exog_params.biasdf m.state.bias .Up
    · simp [h1]
    · have hle := le_of_not_lt h1
      by_cases h2 : s m.rngIdx < m.exog_params.biasdf m.state.bias .Neutral <;>
        simp [h1, h2, hle]
  refine ⟨hmain, fun heq => ?_, fun heq hlt => ?_⟩
  · rw [hmain, heq]
    split
    · exact absurd (by assumption) (lt_irrefl _)
    · split <;> simp
  · rw [hmain, heq]
    rw [if_neg (lt_irrefl _), if_pos hlt]

/-- Witness for C2 (amended): with Neutral-row thresholds `0.3 < 0.7`
and a coin of exactly `0.3`, the drawn regime is Neutral. -/
theorem regime_selection_witness :
    (exog_info_fn wCoinStream wModel).1.2 = Bias.Neutral :=
  (regime_selection wCoinStream wModel).2.2 (by with_unfolding_all decide)
    (by with_unfolding_all decide)

/-- Counterexample for C2's tie-break sentence: in the validly
configured model `wTieModel` (raw Neutral row `Up 1/2, Neutral 0,
Down 1/2` sums to 1; cumulative thresholds `0.5, 0.5, 1`), a coin of
exactly the Up threshold `0.5` draws `Down`, not `Neutral`. -/
theorem regime_tie_counterexample :
    rowSum rawTie.biasdf Bias.Neutral = 1 ∧
    wTieStream wTieModel.rngIdx = wTieModel.exog_params.biasdf wTieModel.state.bias Bias.Up ∧
    (exog_info_fn wTieStream wTieModel).1.2 = Bias.Down := by
  with_unfolding_all decide

/-! ## Trajectory invariants -/

theorem step_price_nonneg (s : ℕ → ℚ) (m : Model) (d : Decision) :
    0 ≤ (step s m d).state.price := by
  rw [step_price_def]
  exact exog_price_nonneg s m

theorem traj_price_nonneg (s : ℕ → ℚ) : ∀ (decs : List Decision) (m : Model),
    ∀ p ∈ (traj s m decs).map (fun x => x.state.price), 0 ≤ p
  | [], m => by simp [traj]
  | d :: ds, m => by
    intro p hp
    simp only [traj, List.map_cons, List.mem_cons] at hp
    rcases hp with h | h
    · rw [h]
      exact step_price_nonneg s m d
    · exact traj_price_nonneg s ds (step s m d) p (by simpa using h)

/-- C4: The generator's price is the old price plus the drawn delta,
clamped at 0 from below (`max 0 ·`); consequently every state a `step`
ever installs — along any trajectory, any decision sequence, any
stream — has a non-negative `price`. -/
theorem price_clamped_nonneg (s : ℕ → ℚ) (m : Model) (decs : List Decision) :
    ((exog_info_fn s m).1.1 =
      max 0 (m.state.price + price_delta_draw m (s m.rngIdx) (s (m.rngIdx + 1)))) ∧
    ∀ p ∈ (traj s m decs).map (fun x => x.state.price), 0 ≤ p := by
  constructor
  · rw [exog_price_def]
    split
    · exact (max_eq_left (le_of_lt (by assumption))).symm
    · exact (max_eq_right (le_of_not_lt (by assumption))).symm
  · exact traj_price_nonneg s decs m

/-- Witness for C4: the first price along a concrete trajectory is
non-negative. -/
theorem price_clamped_nonneg_witness :
    0 ≤ ((traj wStream wModel [wHold]).map (fun x => x.state.price)).headD 0 :=
  (price_clamped_nonneg wStream wModel [wHold]).2 _ (by with_unfolding_all decide)

theorem step_resource_cases (s : ℕ → ℚ) (m : Model) (d : Decision) :
    (step s m d).state.resource = 0 ∨ (step s m d).state.resource = m.state.resource := by
  rw [step_resource_def]
  split
  · exact Or.inl rfl
  · exact Or.inr rfl

theorem step_resource_le (s : ℕ → ℚ) (m : Model) (d : Decision)
    (h : 0 ≤ m.state.resource) :
    (step s m d).state.resource ≤ m.state.resource ∧ 0 ≤ (step s m d).state.resource := by
  rw [step_resource_def]
  split
  · exact ⟨h, le_refl 0⟩
  · exact ⟨le_refl _, h⟩

theorem traj_resource_chain (s : ℕ → ℚ) : ∀ (decs : List Decision) (m : Model),
    0 ≤ m.state.resource →
    List.Chain' (fun a b => b ≤ a) ((m :: traj s m decs).map fun x => x.state.resource)
  | [], m, _ => by simp [traj]
  | d :: ds, m, h => by
    simp only [traj, List.map_cons]
    refine List.chain'_cons.2 ⟨(step_resource_le s m d h).1, ?_⟩
    have := traj_resource_chain s ds (step s m d) (step_resource_le s m d h).2
    simpa using this

theorem traj_resource_zero (s : ℕ → ℚ) : ∀ (decs : List Decision) (m : Model),
    m.state.resource = 0 →
    ∀ r ∈ (traj s m decs).map (fun x => x.state.resource), r = 0
  | [], m, _ => by simp [traj]
  | d :: ds, m, h => by
    have hz : (step s m d).state.resource = 0 := by
      rcases step_resource_cases s m d with h0 | h0
      · exact h0
      · rw [h0, h]
    intro r hr
    simp only [traj, List.map_cons, List.mem_cons] at hr
    rcases hr with h1 | h1
    · rw [h1, hz]
    · exact traj_resource_zero s ds (step s m d) hz r (by simpa using h1)

/-- C6: Along every trajectory the `resource` field never increases:
starting from a non-negative resource the per-step resources form a
non-increasing chain, and from the moment the resource is 0 every later
state keeps it at 0, whatever sell decisions follow. -/
theorem resource_monotone (s : ℕ → ℚ) (m : Model) (decs : List Decision) :
    (0 ≤ m.state.resource →
      List.Chain' (fun a b => b ≤ a) ((m :: traj s m decs).map fun x => x.state.resource)) ∧
    (m.state.resource = 0 →
      ∀ r ∈ (traj s m decs).map (fun x => x.state.resource), r = 0) :=
  ⟨traj_resource_chain s decs m, traj_resource_zero s decs m⟩

/-- Witness for C6: a concrete hold/sell/hold trajectory has
non-increasing resources, and a sell out of the already-sold model
keeps the resource at 0. -/
theorem resource_monotone_witness :
    (List.Chain' (fun a b : ℚ => b ≤ a)
      ((wModel :: traj wStream wModel [wHold, wSell, wHold]).map fun x => x.state.resource)) ∧
    (((traj wStream wSoldModel [wSell]).map fun x => x.state.resource).headD 1 = 0) :=
  ⟨(resource_monotone wStream wModel [wHold, wSell, wHold]).1 (by with_unfolding_all decide),
   (resource_monotone wStream wSoldModel [wSell]).2 (by with_unfolding_all decide) _
     (by with_unfolding_all decide)⟩

theorem step_objective_mono (s : ℕ → ℚ) (m : Model) (d : Decision)
    (h : 0 ≤ m.state.price) : m.objective ≤ (step s m d).objective := by
  rw [step_objective_def]
  refine le_add_of_nonneg_right ?_
  split
  · simpa using h
  · simp

theorem traj_objective_chain (s : ℕ → ℚ) : ∀ (decs : List Decision) (m : Model),
    0 ≤ m.state.price →
    List.Chain' (fun a b => a ≤ b) ((m :: traj s m decs).map Model.objective)
  | [], m, _ => by simp [traj]
  | d :: ds, m, h => by
    simp only [traj, List.map_cons]
    refine List.chain'_cons.2 ⟨step_objective_mono s m d h, ?_⟩
    have := traj_objective_chain s ds (step s m d) (step_price_nonneg s m d)
    simpa using this

/-- C7: The running cumulative objective never decreases along a
trajectory started from a non-negative price: each step's contribution
is ≥ 0, so the per-step objectives form a non-decreasing chain. -/
theorem objective_monotone (s : ℕ → ℚ) (m : Model) (decs : List Decision)
    (h : 0 ≤ m.state.price) :
    List.Chain' (fun a b => a ≤ b) ((m :: traj s m decs).map Model.objective) :=
  traj_objective_chain s decs m h

/-- Witness for C7: the objectives along a concrete trajectory form a
non-decreasing chain. -/
theorem objective_monotone_witness :
    List.Chain' (fun a b : ℚ => a ≤ b)
      ((wModel :: traj wStream wModel [wHold, wSell, wHold]).map Model.objective) :=
  objective_monotone wStream wModel [wHold, wSell, wHold] (by with_unfolding_all decide)

/-! ## Determinism -/

theorem exog_congr (s₁ s₂ : ℕ → ℚ) (m : Model)
    (h0 : s₁ m.rngIdx = s₂ m.rngIdx) (h1 : s₁ (m.rngIdx + 1) = s₂ (m.rngIdx + 1)) :
    exog_info_fn s₁ m = exog_info_fn s₂ m := by
  unfold exog_info_fn
  rw [h0, h1]

theorem step_congr (s₁ s₂ : ℕ → ℚ) (m : Model) (d : Decision)
    (h0 : s₁ m.rngIdx = s₂ m.rngIdx) (h1 : s₁ (m.rngIdx + 1) = s₂ (m.rngIdx + 1)) :
    step s₁ m d = step s₂ m d := by
  unfold step
  rw [exog_congr s₁ s₂ m h0 h1]

theorem traj_congr (s₁ s₂ : ℕ → ℚ) : ∀ (decs : List Decision) (m : Model),
    (∀ i, i < 2 * decs.length → s₁ (m.rngIdx + i) = s₂ (m.rngIdx + i)) →
    traj s₁ m decs = traj s₂ m decs
  | [], _, _ => rfl
  | d :: ds, m, h => by
    have h0 : s₁ m.rngIdx = s₂ m.rngIdx := by
      simpa using h 0 (by simp only [List.length_cons]; omega)
    have h1 : s₁ (m.rngIdx + 1) = s₂ (m.rngIdx + 1) :=
      h 1 (by simp only [List.length_cons]; omega)
    have hs := step_congr s₁ s₂ m d h0 h1
    unfold traj
    rw [hs]
    have htail : traj s₁ (step s₂ m d) ds = traj s₂ (step s₂ m d) ds := by
      refine traj_congr s₁ s₂ ds (step s₂ m d) ?_
      intro i hi
      rw [step_rngIdx]
      have he : m.rngIdx + 2 + i = m.rngIdx + (2 + i) := by omega
      rw [he]
      exact h (2 + i) (by simp only [List.length_cons] at hi ⊢; omega)
    rw [htail]

theorem run_congr (s₁ s₂ : ℕ → ℚ) : ∀ (decs : List Decision) (m : Model),
    (∀ i, i < 2 * decs.length → s₁ (m.rngIdx + i) = s₂ (m.rngIdx + i)) →
    run s₁ m decs = run s₂ m decs
  | [], _, _ => rfl
  | d :: ds, m, h => by
    have h0 : s₁ m.rngIdx = s₂ m.rngIdx := by
      simpa using h 0 (by simp only [List.length_cons]; omega)
    have h1 : s₁ (m.rngIdx + 1) = s₂ (m.rngIdx + 1) :=
      h 1 (by simp only [List.length_cons]; omega)
    have hs := step_congr s₁ s₂ m d h0 h1
    unfold run
    rw [hs]
    refine run_congr s₁ s₂ ds (step s₂ m d) ?_
    intro i hi
    rw [step_rngIdx]
    have he : m.rngIdx + 2 + i = m.rngIdx + (2 + i) := by omega
    rw [he]
    exact h (2 + i) (by simp only [List.length_cons] at hi ⊢; omega)

/-- C5: Each step consumes exactly two draws from the model's stream
(the cursor advances by 2), and a run over `T` decisions depends on the
stream only through its first `2·T` positions past the cursor: two
streams that agree there — in particular two instances of the same
seeded source — give identical state sequences and identical final
cumulative objectives for the same model and decision sequence. -/
theorem step_draw_count_determinism :
    (∀ (s : ℕ → ℚ) (m : Model) (d : Decision), (step s m d).rngIdx = m.rngIdx + 2) ∧
    ∀ (s₁ s₂ : ℕ → ℚ) (m : Model) (decs : List Decision),
      (∀ i, i < 2 * decs.length → s₁ (m.rngIdx + i) = s₂ (m.rngIdx + i)) →
      (traj s₁ m decs).map Model.state = (traj s₂ m decs).map Model.state ∧
      (run s₁ m decs).objective = (run s₂ m decs).objective := by
  refine ⟨step_rngIdx, fun s₁ s₂ m decs h => ⟨?_, ?_⟩⟩
  · rw [traj_congr s₁ s₂ decs m h]
  · rw [run_congr s₁ s₂ decs m h]

/-- Witness for C5: two streams agreeing on the four consumed draws of
a two-step run produce the same state sequence and objective. -/
theorem step_draw_count_determinism_witness :
    (traj wS1 wModel [wHold, wSell]).map Model.state =
      (traj wS2 wModel [wHold, wSell]).map Model.state ∧
    (run wS1 wModel [wHold, wSell]).objective =
      (run wS2 wModel [wHold, wSell]).objective :=
  step_draw_count_determinism.2 wS1 wS2 wModel [wHold, wSell]
    (by with_unfolding_all decide)

/-! ## Construction -/

/-- C8 (amended): construction never fails — the source constructor
validates nothing.  Whenever a raw `biasdf` row does not sum to 1, the
constructor still returns a model, storing the cumulated offending
table unchanged, while the spec's validating constructor rejects that
same input with a `ConfigurationError`. -/
theorem init_performs_no_validation (sv dv : List String) (s0 : State)
    (exog_0 : RawParams) (T seed : ℕ) (r : Bias)
    (h : rowSum exog_0.biasdf r ≠ 1) :
    (AssetSellingModel.init sv dv s0 exog_0 T seed).exog_params.biasdf =
      cumsumRow exog_0.biasdf ∧
    isError (initValidated sv dv s0 exog_0 T seed) = true := by
  refine ⟨rfl, ?_⟩
  have hcond : ¬ (rowSum exog_0.biasdf .Up = 1 ∧ rowSum exog_0.biasdf .Neutral = 1 ∧
      rowSum exog_0.biasdf .Down = 1) := by
    intro hc
    rcases hc with ⟨hU, hN, hD⟩
    cases r
    · exact h hU
    · exact h hN
    · exact h hD
  unfold initValidated
  rw [if_neg hcond]
  rfl

/-- Witness for C8 (amended): at `rawBad` (rows sum to `0.7`), the
source constructor stores the cumulated table and the validating
constructor rejects. -/
theorem init_performs_no_validation_witness :
    (AssetSellingModel.init ["resource", "price", "price_smoothed", "bias"] ["sell"]
        { resource := 1, price := 10, price_smoothed := 10, bias := Bias.Neutral }
        rawBad 10 42).exog_params.biasdf = cumsumRow rawBad.biasdf ∧
    isError (initValidated ["resource", "price", "price_smoothed", "bias"] ["sell"]
        { resource := 1, price := 10, price_smoothed := 10, bias := Bias.Neutral }
        rawBad 10 42) = true :=
  init_performs_no_validation _ _ _ rawBad 10 42 Bias.Up (by with_unfolding_all decide)

/-- Counterexample for C8: feeding the constructor rows summing to
`0.7` does not fail — it returns a fully populated model (objective 0,
the supplied initial state, the cumulated bad row stored), whereas the
spec-modelled validating constructor rejects the same input. -/
theorem init_no_validation_counterexample :
    rowSum rawBad.biasdf Bias.Neutral ≠ 1 ∧
    wBadModel.objective = 0 ∧
    wBadModel.state =
      { resource := 1, price := 10, price_smoothed := 10, bias := Bias.Neutral } ∧
    wBadModel.exog_params.biasdf Bias.Neutral Bias.Down = mkRat 7 10 ∧
    isError (initValidated ["resource", "price", "price_smoothed", "bias"] ["sell"]
        { resource := 1, price := 10, price_smoothed := 10, bias := Bias.Neutral }
        rawBad 10 42) = true := by
  with_unfolding_all decide

end AssetSelling
